import Mathlib

/-!
Verification of the job-to-worker matching core of the JOB_assist repository.

The definitions below are a shallow embedding of `src/matcher.py`,
`src/models.py` and the data they operate on.  Python strings are modelled
as Lean `String`s, with the case-folding / substring operations re-implemented
over `List Char` (Python's `str.lower`, `in`, `strip`, `split`, `isdigit`
restricted to ASCII, which is all the repository ever feeds them).
Python `int` is modelled as `ℤ`, Python `float` as `ℚ` (exact arithmetic;
no claim in this development depends on IEEE rounding), Python lists as
`List`, `itertools.combinations(l, 2)` as `pairsOf`, and the stable
`list.sort(key=…, reverse=True)` as the stable insertion sort `pySortDesc`
(stable sorts are extensionally unique, so insertion sort is a faithful
model of Timsort for a fixed key).
-/

/-- `str.lower()` restricted to ASCII, over a `String`. -/
def pyLower (s : String) : String :=
  String.mk (s.toList.map Char.toLower)

/-- Is `needle` a prefix of `haystack`?  Helper for `pyContains`. -/
def listPrefix : List Char → List Char → Bool
  | [], _ => true
  | _ :: _, [] => false
  | a :: as_, b :: bs => a == b && listPrefix as_ bs

/-- Python's substring test `needle in haystack` over char lists. -/
def listContainsSub (haystack needle : List Char) : Bool :=
  match haystack with
  | [] => needle.isEmpty
  | _ :: t => listPrefix needle haystack || listContainsSub t needle

/-- Python's `needle in haystack` on strings. -/
def pyContains (haystack needle : String) : Bool :=
  listContainsSub haystack.toList needle.toList

/-- Python's `str.strip()` (ASCII whitespace). -/
def pyStrip (s : String) : String :=
  String.mk
    (((s.toList.dropWhile Char.isWhitespace).reverse.dropWhile Char.isWhitespace).reverse)

/-- Python's `str.split(sep)` for a one-character separator, over char lists:
`"" ↦ [""]`, separators at the ends produce empty fields, like Python. -/
def splitOnChar (c : Char) : List Char → List (List Char)
  | [] => [[]]
  | x :: xs =>
    if x = c then [] :: splitOnChar c xs
    else
      match splitOnChar c xs with
      | r :: rs => (x :: r) :: rs
      | [] => [[x]]

/-- Python's `str.isdigit()` (ASCII digits; `""` is not a digit string). -/
def pyIsDigit (s : String) : Bool :=
  !s.toList.isEmpty && s.toList.all Char.isDigit

/-- Numeric value of a list of ASCII digits. -/
def digitsToNat : List Char → ℕ → ℕ
  | [], acc => acc
  | c :: cs, acc => digitsToNat cs (acc * 10 + (c.toNat - 48))

/-- Python's `int(s)`: optional surrounding whitespace, optional sign, then
decimal digits; anything else raises `ValueError` (modelled as `.error`). -/
def pyInt (s : String) : Except String ℤ :=
  let t := (pyStrip s).toList
  let signDigits : ℤ × List Char :=
    match t with
    | '-' :: rest => (-1, rest)
    | '+' :: rest => (1, rest)
    | rest => (1, rest)
  if !signDigits.2.isEmpty && signDigits.2.all Char.isDigit then
    Except.ok (signDigits.1 * (digitsToNat signDigits.2 0 : ℤ))
  else
    Except.error ("invalid literal for int() with base 10: " ++ s)

/-- The `DAY_ALIASES` table of `src/models.py`. -/
def DAY_ALIASES : List (String × String) :=
  [("mon", "Mon"), ("monday", "Mon"),
   ("tue", "Tue"), ("tuesday", "Tue"),
   ("wed", "Wed"), ("wednesday", "Wed"),
   ("thu", "Thu"), ("thursday", "Thu"),
   ("fri", "Fri"), ("friday", "Fri"),
   ("sat", "Sat"), ("saturday", "Sat"),
   ("sun", "Sun"), ("sunday", "Sun")]

/-- `normalize_day` of `src/models.py`: strip + lowercase, look the key up in
`DAY_ALIASES`, raise `ValueError` on a miss. -/
def normalize_day (raw : String) : Except String String :=
  let key := pyLower (pyStrip raw)
  match DAY_ALIASES.find? (fun p => p.1 == key) with
  | some p => Except.ok p.2
  | none => Except.error ("Unsupported day name: " ++ raw)

/-- A raw time value as it arrives in a schedule payload: Python `int` or `str`. -/
inductive RawTime where
  | int (i : ℤ)
  | str (s : String)
deriving DecidableEq

/-- `parse_time` of `src/models.py`.  An `int` passes through; a string with a
colon is split and both pieces go through `int(…)` (which can raise, as can a
split into ≠ 2 pieces); an all-digit string is parsed; anything else silently
falls back to `0` (the `return 0 # Fallback` line). -/
def parse_time : RawTime → Except String ℤ
  | RawTime.int i => Except.ok i
  | RawTime.str s =>
    if s.toList.contains ':' then
      match splitOnChar ':' s.toList with
      | [h, m] => do
        let hh ← pyInt (String.mk h)
        let mm ← pyInt (String.mk m)
        Except.ok (hh * 60 + mm)
      | _ => Except.error ("could not unpack time string: " ++ s)
    else if pyIsDigit s then
      pyInt s
    else
      Except.ok 0

/-- `TimeBlock` of `src/models.py`: one contiguous interval on one weekday,
minutes since midnight.  The source dataclass performs no validation at all
(in particular it never checks `start < end`). -/
structure TimeBlock where
  day : String
  start : ℤ
  «end» : ℤ
deriving DecidableEq

/-- A raw schedule-block payload, the argument of `TimeBlock.from_dict`
(`str(payload["day"])` is modelled by taking the day as a string). -/
structure RawBlock where
  day : String
  start : RawTime
  «end» : RawTime
deriving DecidableEq

/-- `TimeBlock.from_dict` of `src/models.py`: normalize the day, parse both
times, build the block.  No `start < end` check is performed. -/
def TimeBlock.from_dict (payload : RawBlock) : Except String TimeBlock := do
  let d ← normalize_day payload.day
  let s ← parse_time payload.start
  let e ← parse_time payload.«end»
  Except.ok ⟨d, s, e⟩

/-- `Job` of `src/models.py`, restricted to the fields the matching core
reads (`currency`, `company`, `job_source`, `search_query`, `description`,
`apply_link`, `posted_date` are carried by the source dataclass but never
read by any function embedded here, so they are omitted). -/
structure Job where
  job_id : String
  title : String
  location : String
  hourly_rate : ℚ
  required_skills : List String
  hours_per_week : ℤ
  schedule_blocks : List TimeBlock
deriving DecidableEq

/-- `Job.weekly_pay` (derived property). -/
def Job.weekly_pay (j : Job) : ℚ :=
  j.hourly_rate * (j.hours_per_week : ℚ)

/-- `Job.is_remote` (derived property): `"remote" in location.lower()`. -/
def Job.is_remote (j : Job) : Bool :=
  pyContains (pyLower j.location) "remote"

/-- `MatchInsight` of `src/models.py`. -/
structure MatchInsight where
  title : String
  detail : String
deriving DecidableEq

/-- `UserProfile` of `src/models.py`, restricted to the fields the matching
core reads.  `busy_map` is modelled as the total lookup
`day ↦ busy_map.get(day, [])`; `preferences` as the total lookup
`key ↦ preferences.get(key)`. -/
structure UserProfile where
  location : String
  min_hourly_rate : ℚ
  max_hours_per_week : ℤ
  desired_hours_per_week : Option ℤ
  remote_ok : Bool
  onsite_ok : Bool
  skills : List String
  preferences : String → Option String
  preferred_locations : List String
  busy_map : String → List (ℤ × ℤ)

/-- `MatchResult` of `src/models.py`. -/
structure MatchResult where
  jobs : List Job
  total_hours : ℤ
  total_pay : ℚ
  insights : List MatchInsight
  score : ℚ
deriving DecidableEq

/-- `conflicts` of `src/matcher.py`: walk the busy intervals, return `True`
on the first half-open overlap. -/
def conflicts (block : TimeBlock) : List (ℤ × ℤ) → Bool
  | [] => false
  | (s, e) :: rest =>
    if block.start < e ∧ block.«end» > s then true
    else conflicts block rest

/-- `jobs_overlap` of `src/matcher.py`: any block of A and any block of B on
the same day that half-open-overlap. -/
def jobs_overlap (job_a job_b : Job) : Bool :=
  job_a.schedule_blocks.any fun block_a =>
    job_b.schedule_blocks.any fun block_b =>
      block_a.day == block_b.day &&
        decide (block_a.start < block_b.«end») &&
        decide (block_a.«end» > block_b.start)

/-- The schedule loop at the end of `job_fits_user`: every block of the job
must be conflict-free against the user's busy map for that day. -/
def scheduleFits (job : Job) (user : UserProfile) : Bool :=
  job.schedule_blocks.all fun block => !conflicts block (user.busy_map block.day)

/-- Python's `"{x:.0f}"` for our exact rationals: round to the nearest
integer and print it (Python rounds ties to even; no value in this
development is formatted at a tie). -/
def pyFormatF0 (q : ℚ) : String :=
  toString (round q)

/-- The location-acceptance logic of `job_fits_user` (lines 38–63 of
`src/matcher.py`), including the unreachable restated remote fallback. -/
def locationOk (job : Job) (user : UserProfile) : Bool :=
  let is_remote := job.is_remote || pyContains (pyLower job.location) "remote"
  if is_remote && user.remote_ok then true
  else if !is_remote && user.onsite_ok then
    if user.location ≠ "" && pyContains (pyLower job.location) (pyLower user.location) then
      true
    else if user.location ≠ "" && pyContains (pyLower user.location) (pyLower job.location) then
      true
    else
      let preferred :=
        user.preferred_locations.map pyLower ++
          (if user.location ≠ "" then [pyLower user.location] else [])
      preferred.contains (pyLower job.location)
  else if user.remote_ok && is_remote then true
  else false

/-- `job_fits_user` of `src/matcher.py`.  The source also computes a
`skill_gap` list but deliberately ignores it (the soft-skill relaxation:
the branch body is `pass`), so it is not reproduced here. -/
def job_fits_user (job : Job) (user : UserProfile) : Bool × List MatchInsight :=
  if job.hourly_rate < user.min_hourly_rate then (false, [])
  else if job.hours_per_week > user.max_hours_per_week then (false, [])
  else if !locationOk job user then (false, [])
  else if !scheduleFits job user then (false, [])
  else
    (true,
      [⟨"Skills", "Skills match or not specified."⟩,
       ⟨"Schedule", "Fits within free time blocks."⟩,
       ⟨"Location", "Matches location preference."⟩,
       ⟨"Income", "Pays " ++ pyFormatF0 job.hourly_rate ++ " per hour."⟩])

/-- `score_job` of `src/matcher.py`.  `desired_hours_per_week or
max_hours_per_week` is Python truthiness: `None` and `0` both fall back. -/
def score_job (job : Job) (user : UserProfile) : ℚ :=
  let pay_weight : ℚ := job.hourly_rate * 2
  let hours_target : ℤ :=
    match user.desired_hours_per_week with
    | some d => if d ≠ 0 then d else user.max_hours_per_week
    | none => user.max_hours_per_week
  let hours_alignment : ℚ :=
    1 - |(job.hours_per_week : ℚ) - (hours_target : ℚ)| / ((max hours_target 1 : ℤ) : ℚ)
  let preference_bonus : ℚ :=
    match user.preferences "environment" with
    | some env =>
      if env ≠ "" && pyContains (pyLower job.title) (pyLower env) then 5 else 0
    | none => 0
  pay_weight + hours_alignment * 10 + preference_bonus

/-- Insert into a descending list: the stable step of `pySortDesc`.  An
element is placed before the first element whose key is not larger, so an
element inserted later (originally earlier in the input) precedes its
key-ties. -/
def insertDesc (key : α → ℚ) (x : α) : List α → List α
  | [] => [x]
  | y :: ys => if key y ≤ key x then x :: y :: ys else y :: insertDesc key x ys

/-- Python's `list.sort(key=…, reverse=True)`: a stable descending sort.
Stable sorts for a fixed key agree extensionally, so this insertion sort is a
faithful model of the source's Timsort call. -/
def pySortDesc (key : α → ℚ) : List α → List α
  | [] => []
  | x :: xs => insertDesc key x (pySortDesc key xs)

/-- The eligibility loop of `JobMatcher.match_single_jobs`: keep each fitting
job with its score and insights, in input order. -/
def eligibleSingles (jobs : List Job) (user : UserProfile) :
    List (Job × ℚ × List MatchInsight) :=
  jobs.filterMap fun job =>
    let fi := job_fits_user job user
    if fi.1 then some (job, score_job job user, fi.2) else none

/-- Wrap one eligible entry as a one-job `MatchResult`
(`total_hours = hours_per_week`, `total_pay = weekly_pay`). -/
def mkSingleResult (e : Job × ℚ × List MatchInsight) : MatchResult :=
  { jobs := [e.1]
    total_hours := e.1.hours_per_week
    total_pay := e.1.weekly_pay
    insights := e.2.2
    score := e.2.1 }

/-- `JobMatcher.match_single_jobs` of `src/matcher.py` (the `JobMatcher`
class holds only the job list, passed here as the first argument). -/
def match_single_jobs (jobs : List Job) (user : UserProfile) (limit : ℕ) :
    List MatchResult :=
  ((pySortDesc (fun e => e.2.1) (eligibleSingles jobs user)).take limit).map
    mkSingleResult

/-- `match_single_jobs` with its default argument `limit = 3`. -/
def match_single_jobs_default (jobs : List Job) (user : UserProfile) :
    List MatchResult :=
  match_single_jobs jobs user 3

/-- `itertools.combinations(l, 2)`, in enumeration order. -/
def pairsOf : List α → List (α × α)
  | [] => []
  | x :: xs => xs.map (fun y => (x, y)) ++ pairsOf xs

/-- The eligibility loop of `JobMatcher.match_job_pairs`. -/
def eligiblePairJobs (jobs : List Job) (user : UserProfile) : List Job :=
  jobs.filter fun job => (job_fits_user job user).1

/-- The `job_scores` dict of `match_job_pairs`, as an insertion-ordered
association list. -/
def jobScores (jobs : List Job) (user : UserProfile) : List (String × ℚ) :=
  (eligiblePairJobs jobs user).map fun job => (job.job_id, score_job job user)

/-- Python dict lookup over the association list: the last assignment to a
key wins.  A missing key would be a `KeyError` in the source; it cannot occur
in `match_job_pairs` (every looked-up job is eligible), so the model totalises
it with `0`. -/
def dictLookup (d : List (String × ℚ)) (k : String) : ℚ :=
  match d.reverse.find? (fun p => p.1 == k) with
  | some p => p.2
  | none => 0

/-- `JobMatcher._format_time`: minutes since midnight as `HH:MM` (Python `//`
and `%` are floor division and modulo, `{:02d}` zero-pads exactly the
nonnegative single-digit values). -/
def format_time (minutes : ℤ) : String :=
  let pad2 : ℤ → String := fun n =>
    if 0 ≤ n ∧ n < 10 then "0" ++ toString n else toString n
  pad2 (Int.fdiv minutes 60) ++ ":" ++ pad2 (Int.fmod minutes 60)

/-- The weekday multiset of a job's blocks (the source builds a `set`; only
emptiness of the intersection and membership are ever consumed, for which the
list is equivalent). -/
def daysOf (j : Job) : List String :=
  j.schedule_blocks.map (fun b => b.day)

/-- The shared weekdays of two jobs (`days_a & days_b` of the source, as a
list: empty iff the set intersection is empty). -/
def sharedDays (job_a job_b : Job) : List String :=
  (daysOf job_a).filter fun d => (daysOf job_b).contains d

/-- Average start minute of a job's blocks (`sum/len` of the source; only
evaluated when the job has at least one block). -/
def avgStart (j : Job) : ℚ :=
  ((j.schedule_blocks.map (fun b => b.start)).sum : ℚ) /
    (j.schedule_blocks.length : ℚ)

/-- `JobMatcher._get_pair_type` of `src/matcher.py`. -/
def get_pair_type (job_a job_b : Job) : String :=
  if (sharedDays job_a job_b).isEmpty then
    "Different Days (e.g., Mon-Wed and Thu-Sun)"
  else
    let avg_start_a := avgStart job_a
    let avg_start_b := avgStart job_b
    if |avg_start_a - avg_start_b| > 240 then
      if avg_start_a < avg_start_b then "Morning & Evening Split (ideal rest period)"
      else "Evening & Morning Split (ideal rest period)"
    else
      "Complementary Schedule"

/-- `JobMatcher._get_pair_schedule_insights` of `src/matcher.py`. -/
def get_pair_schedule_insights (job_a job_b : Job) : String :=
  let render : Job → String := fun j =>
    String.intercalate ", "
      (j.schedule_blocks.map fun b =>
        b.day ++ " " ++ format_time b.start ++ "-" ++ format_time b.«end»)
  render job_a ++ " | " ++ render job_b ++ " | Total: " ++
    toString (job_a.hours_per_week + job_b.hours_per_week) ++ "h/week"

/-- The `MatchResult` built for one surviving pair inside `match_job_pairs`. -/
def mkPairResult (job_a job_b : Job) (scores : List (String × ℚ)) : MatchResult :=
  let total_hours := job_a.hours_per_week + job_b.hours_per_week
  let total_pay := job_a.weekly_pay + job_b.weekly_pay
  { jobs := [job_a, job_b]
    total_hours := total_hours
    total_pay := total_pay
    insights :=
      [⟨"Pair Type", get_pair_type job_a job_b⟩,
       ⟨"Schedule Fit", get_pair_schedule_insights job_a job_b⟩,
       ⟨"Combined Hours", toString total_hours ++ "h per week"⟩,
       ⟨"Income", "Combined weekly income: " ++ pyFormatF0 total_pay ++ " AED"⟩]
    score := dictLookup scores job_a.job_id + dictLookup scores job_b.job_id }

/-- `JobMatcher.match_job_pairs` of `src/matcher.py`. -/
def match_job_pairs (jobs : List Job) (user : UserProfile) (limit : ℕ) :
    List MatchResult :=
  let scores := jobScores jobs user
  let combos := (pairsOf (eligiblePairJobs jobs user)).filterMap fun p =>
    if jobs_overlap p.1 p.2 then none
    else if p.1.hours_per_week + p.2.hours_per_week > user.max_hours_per_week then none
    else some (mkPairResult p.1 p.2 scores)
  (pySortDesc MatchResult.score combos).take limit

/-- `match_job_pairs` with its default argument `limit = 3`. -/
def match_job_pairs_default (jobs : List Job) (user : UserProfile) :
    List MatchResult :=
  match_job_pairs jobs user 3

/-- The preference bonus exactly as the spec words it: `5` when
`user.preferences["environment"]` is a non-empty case-insensitive substring
of `job.title`, else `0` (substring stated as `List.IsInfix` of the
case-folded characters). -/
def specPreferenceBonus (job : Job) (user : UserProfile) : ℚ :=
  match user.preferences "environment" with
  | some env =>
    if env ≠ "" ∧ (pyLower env).toList <:+: (pyLower job.title).toList then 5 else 0
  | none => 0

/-- The scoring target exactly as the claim words it: `desired_hours_per_week`
if set, else `max_hours_per_week`. -/
def specTargetClaimed (user : UserProfile) : ℤ :=
  (user.desired_hours_per_week).getD user.max_hours_per_week

/-- The score formula exactly as the claim words it (target = desired if set). -/
def specScoreClaimed (job : Job) (user : UserProfile) : ℚ :=
  job.hourly_rate * 2 +
    (1 - |(job.hours_per_week : ℚ) - (specTargetClaimed user : ℚ)| /
        max (specTargetClaimed user : ℚ) 1) * 10 +
    specPreferenceBonus job user

/-- The scoring target as the code actually computes it: `desired` only when
it is set *and non-zero* (Python truthiness of `desired or max`). -/
def specTargetAmended (user : UserProfile) : ℤ :=
  match user.desired_hours_per_week with
  | some d => if d = 0 then user.max_hours_per_week else d
  | none => user.max_hours_per_week

/-- The amended score formula (target falls back to `max_hours_per_week`
when `desired_hours_per_week` is unset **or zero**). -/
def specScoreAmended (job : Job) (user : UserProfile) : ℚ :=
  job.hourly_rate * 2 +
    (1 - |(job.hours_per_week : ℚ) - (specTargetAmended user : ℚ)| /
        max (specTargetAmended user : ℚ) 1) * 10 +
    specPreferenceBonus job user

/-- A simple profile used as concrete input in several witnesses: accepts
remote work, cap 40h/week, floor 5/h, no busy intervals, no preferences. -/
def wUser : UserProfile :=
  { location := ""
    min_hourly_rate := 5
    max_hours_per_week := 40
    desired_hours_per_week := none
    remote_ok := true
    onsite_ok := false
    skills := []
    preferences := fun _ => none
    preferred_locations := []
    busy_map := fun _ => [] }

/-- A concrete remote job working Monday 09:00–18:00. -/
def wJobA : Job :=
  { job_id := "a"
    title := "Barista"
    location := "Remote"
    hourly_rate := 10
    required_skills := []
    hours_per_week := 10
    schedule_blocks := [⟨"Mon", 540, 1080⟩] }

/-- A concrete remote job working Tuesday 09:00–18:00. -/
def wJobB : Job :=
  { job_id := "b"
    title := "Tutor"
    location := "Remote"
    hourly_rate := 12
    required_skills := []
    hours_per_week := 10
    schedule_blocks := [⟨"Tue", 540, 1080⟩] }

/-- A concrete remote job working Wednesday 10:00–12:00. -/
def wJobC : Job :=
  { job_id := "c"
    title := "Writer"
    location := "Remote"
    hourly_rate := 8
    required_skills := []
    hours_per_week := 8
    schedule_blocks := [⟨"Wed", 600, 720⟩] }

/-- A concrete remote job working Thursday 14:00–16:00. -/
def wJobD : Job :=
  { job_id := "d"
    title := "Editor"
    location := "Remote"
    hourly_rate := 9
    required_skills := []
    hours_per_week := 6
    schedule_blocks := [⟨"Thu", 840, 960⟩] }

/-- A concrete job with no schedule blocks (as `infer_schedule_from_title`
produces for remote jobs). -/
def blocklessJob : Job :=
  { job_id := "z"
    title := "Remote Designer"
    location := "Remote"
    hourly_rate := 7
    required_skills := []
    hours_per_week := 40
    schedule_blocks := [] }

/-- The profile of the C7 counterexample: `desired_hours_per_week` is set,
but set to `0`. -/
def cexUser7 : UserProfile :=
  { location := ""
    min_hourly_rate := 5
    max_hours_per_week := 40
    desired_hours_per_week := some 0
    remote_ok := true
    onsite_ok := false
    skills := []
    preferences := fun _ => none
    preferred_locations := []
    busy_map := fun _ => [] }

/-- The job of the C7 counterexample: 10 h/week at rate 20. -/
def cexJob7 : Job :=
  { job_id := "p"
    title := "Cook"
    location := "Remote"
    hourly_rate := 20
    required_skills := []
    hours_per_week := 10
    schedule_blocks := [] }

theorem insertDesc_perm (key : α → ℚ) (x : α) (l : List α) :
    (insertDesc key x l).Perm (x :: l) := by
  induction l with
  | nil => simp [insertDesc]
  | cons y ys ih =>
    simp only [insertDesc]
    split
    · exact List.Perm.refl _
    · exact (List.Perm.cons y ih).trans (List.Perm.swap x y ys)

theorem pySortDesc_perm (key : α → ℚ) (l : List α) :
    (pySortDesc key l).Perm l := by
  induction l with
  | nil => exact List.Perm.refl _
  | cons x xs ih =>
    exact (insertDesc_perm key x (pySortDesc key xs)).trans (List.Perm.cons x ih)

theorem insertDesc_sorted (key : α → ℚ) (x : α) (l : List α)
    (h : l.Pairwise (fun a b => key b ≤ key a)) :
    (insertDesc key x l).Pairwise (fun a b => key b ≤ key a) := by
  induction l with
  | nil => simp [insertDesc]
  | cons y ys ih =>
    rcases List.pairwise_cons.mp h with ⟨hy, hys⟩
    simp only [insertDesc]
    split
    · rename_i hyx
      exact List.pairwise_cons.mpr
        ⟨fun z hz => by
          rcases List.mem_cons.mp hz with rfl | hz
          · exact hyx
          · exact (hy z hz).trans hyx, h⟩
    · rename_i hyx
      refine List.pairwise_cons.mpr ⟨fun z hz => ?_, ih hys⟩
      rcases List.mem_cons.mp ((insertDesc_perm key x ys).mem_iff.mp hz) with rfl | hz
      · exact le_of_lt (not_le.mp hyx)
      · exact hy z hz

theorem pySortDesc_sorted (key : α → ℚ) (l : List α) :
    (pySortDesc key l).Pairwise (fun a b => key b ≤ key a) := by
  induction l with
  | nil => simp [pySortDesc]
  | cons x xs ih => exact insertDesc_sorted key x (pySortDesc key xs) ih

theorem insertDesc_filter_key (key : α → ℚ) (x : α) (l : List α) (q : ℚ) :
    (insertDesc key x l).filter (fun e => decide (key e = q)) =
      (x :: l).filter (fun e => decide (key e = q)) := by
  induction l with
  | nil => rfl
  | cons y ys ih =>
    simp only [insertDesc]
    split
    · rfl
    · rename_i hyx
      by_cases hx : key x = q <;> by_cases hy : key y = q
      · exact absurd (le_of_eq (hy.trans hx.symm)) hyx
      · simp [List.filter_cons, hx, hy, ih]
      · simp [List.filter_cons, hx, hy, ih]
      · simp [List.filter_cons, hx, hy, ih]

theorem pySortDesc_filter_key (key : α → ℚ) (l : List α) (q : ℚ) :
    (pySortDesc key l).filter (fun e => decide (key e = q)) =
      l.filter (fun e => decide (key e = q)) := by
  induction l with
  | nil => rfl
  | cons x xs ih =>
    calc (pySortDesc key (x :: xs)).filter (fun e => decide (key e = q))
        = (x :: pySortDesc key xs).filter (fun e => decide (key e = q)) :=
          insertDesc_filter_key key x (pySortDesc key xs) q
      _ = (x :: xs).filter (fun e => decide (key e = q)) := by
          by_cases hx : key x = q <;> simp [List.filter_cons, hx, ih]

theorem eligibleSingles_eq_filter (jobs : List Job) (user : UserProfile) :
    eligibleSingles jobs user =
      (jobs.filter fun j => (job_fits_user j user).1).map
        (fun j => (j, score_job j user, (job_fits_user j user).2)) := by
  induction jobs with
  | nil => rfl
  | cons j js ih =>
    by_cases h : (job_fits_user j user).1 <;>
      simp [eligibleSingles, List.filterMap_cons, List.filter_cons, h] <;>
      exact ih

theorem match_single_jobs_length (jobs : List Job) (user : UserProfile) (limit : ℕ) :
    (match_single_jobs jobs user limit).length =
      min limit (eligibleSingles jobs user).length := by
  unfold match_single_jobs
  rw [List.length_map, List.length_take,
    (pySortDesc_perm (fun e => e.2.1) (eligibleSingles jobs user)).length_eq]

theorem listPrefix_iff (a b : List Char) : listPrefix a b = true ↔ a <+: b := by
  induction a generalizing b with
  | nil => simp [listPrefix]
  | cons x xs ih =>
    cases b with
    | nil => simp [listPrefix]
    | cons y ys =>
      simp [listPrefix, ih, List.cons_prefix_cons]

theorem listContainsSub_iff (h n : List Char) :
    listContainsSub h n = true ↔ n <:+: h := by
  induction h with
  | nil => simp [listContainsSub]
  | cons x t ih =>
    simp [listContainsSub, listPrefix_iff, ih, List.infix_cons_iff]

theorem pyContains_iff (hay nee : String) :
    pyContains hay nee = true ↔ nee.toList <:+: hay.toList :=
  listContainsSub_iff _ _

/-- Claim C1: every `MatchResult` returned by `match_job_pairs` holds exactly
two jobs `A`, `B` that do not overlap and whose combined weekly hours respect
the user's cap. -/
theorem match_job_pairs_feasible (jobs : List Job) (user : UserProfile)
    (limit : ℕ) (r : MatchResult) (hr : r ∈ match_job_pairs jobs user limit) :
    ∃ A B : Job, r.jobs = [A, B] ∧ jobs_overlap A B = false ∧
      A.hours_per_week + B.hours_per_week ≤ user.max_hours_per_week := by
  unfold match_job_pairs at hr
  have hr2 := (pySortDesc_perm MatchResult.score _).mem_iff.mp
    (List.take_subset _ _ hr)
  rcases List.mem_filterMap.mp hr2 with ⟨p, _, heq⟩
  by_cases h1 : jobs_overlap p.1 p.2 = true
  · simp [h1] at heq
  · rw [Bool.not_eq_true] at h1
    by_cases h2 : p.1.hours_per_week + p.2.hours_per_week > user.max_hours_per_week
    · simp [h1, h2] at heq
    · simp only [h1, h2, if_false, Bool.false_eq_true, ite_false, if_neg,
        Option.some.injEq] at heq
      exact ⟨p.1, p.2, by rw [← heq]; rfl, h1, not_lt.mp h2⟩

theorem match_job_pairs_feasible_witness :
    ∃ A B : Job,
      (mkPairResult wJobA wJobB (jobScores [wJobA, wJobB] wUser)).jobs = [A, B] ∧
      jobs_overlap A B = false ∧
      A.hours_per_week + B.hours_per_week ≤ wUser.max_hours_per_week :=
  match_job_pairs_feasible [wJobA, wJobB] wUser 3 _
    (by
      rw [show match_job_pairs [wJobA, wJobB] wUser 3 =
        [mkPairResult wJobA wJobB (jobScores [wJobA, wJobB] wUser)] from rfl]
      exact List.mem_singleton_self _)

/-- Claim C2: a job accepted by `job_fits_user` pays at least the user's
minimum hourly rate and stays within the user's weekly-hours cap. -/
theorem job_fits_user_accept_bounds (job : Job) (user : UserProfile)
    (h : (job_fits_user job user).1 = true) :
    user.min_hourly_rate ≤ job.hourly_rate ∧
      job.hours_per_week ≤ user.max_hours_per_week := by
  unfold job_fits_user at h
  split_ifs at h with h1 h2 h3 h4
  exact ⟨not_lt.mp h1, not_lt.mp h2⟩

theorem job_fits_user_accept_bounds_witness :
    wUser.min_hourly_rate ≤ wJobA.hourly_rate ∧
      wJobA.hours_per_week ≤ wUser.max_hours_per_week :=
  job_fits_user_accept_bounds wJobA wUser rfl

/-- Claim C3: `conflicts` is true iff some busy interval half-open-overlaps
the block; an interval ending at the block's start (or starting at its end)
is never a conflict by itself. -/
theorem conflicts_halfopen_spec (block : TimeBlock) (busy : List (ℤ × ℤ)) :
    (conflicts block busy = true ↔
      ∃ p ∈ busy, block.start < p.2 ∧ block.«end» > p.1) ∧
    ∀ s e : ℤ, conflicts block [(s, block.start)] = false ∧
      conflicts block [(block.«end», e)] = false := by
  constructor
  · induction busy with
    | nil => simp [conflicts]
    | cons p rest ih =>
      obtain ⟨s, e⟩ := p
      by_cases h : block.start < e ∧ block.«end» > s
      · simp only [conflicts, if_pos h, true_iff]
        exact ⟨(s, e), List.mem_cons_self _ _, h⟩
      · rw [show conflicts block ((s, e) :: rest) = conflicts block rest from by
          simp [conflicts, h], ih]
        constructor
        · rintro ⟨p, hp, hc⟩
          exact ⟨p, List.mem_cons_of_mem _ hp, hc⟩
        · rintro ⟨p, hp, hc⟩
          rcases List.mem_cons.mp hp with rfl | hp2
          · exact absurd hc h
          · exact ⟨p, hp2, hc⟩
  · intro s e
    constructor
    · simp [conflicts]
    · simp [conflicts]

/-- Claim C4: `match_single_jobs` returns the accepted jobs sorted descending
by score, stably (ties keep input order, expressed by the per-score filter
equation), truncated to the first `limit`, each wrapped as a one-job result
with `total_hours = hours_per_week` and `total_pay = weekly_pay =
hourly_rate * hours_per_week`. -/
theorem match_single_jobs_spec (jobs : List Job) (user : UserProfile)
    (limit : ℕ) :
    ∃ S : List (Job × ℚ × List MatchInsight),
      match_single_jobs jobs user limit = (S.take limit).map mkSingleResult ∧
      S.Perm (eligibleSingles jobs user) ∧
      S.Pairwise (fun a b => b.2.1 ≤ a.2.1) ∧
      (∀ q : ℚ, S.filter (fun e => decide (e.2.1 = q)) =
        (eligibleSingles jobs user).filter (fun e => decide (e.2.1 = q))) ∧
      eligibleSingles jobs user =
        (jobs.filter fun j => (job_fits_user j user).1).map
          (fun j => (j, score_job j user, (job_fits_user j user).2)) ∧
      ∀ e, mkSingleResult e =
        { jobs := [e.1], total_hours := e.1.hours_per_week,
          total_pay := e.1.hourly_rate * (e.1.hours_per_week : ℚ),
          insights := e.2.2, score := e.2.1 } :=
  ⟨pySortDesc (fun e => e.2.1) (eligibleSingles jobs user), rfl,
    pySortDesc_perm _ _, pySortDesc_sorted _ _,
    fun q => pySortDesc_filter_key _ _ q,
    eligibleSingles_eq_filter jobs user, fun _ => rfl⟩

/-- Claim C5: evaluation of the construction path at malformed inputs.  The
code does **not** raise on a non-numeric time string (it silently coerces it
to minute `0`) and does **not** reject `start ≥ end`; only the invalid
weekday name is a hard error, so the code violates the spec's hard-error
requirement. -/
theorem malformed_input_silently_coerced :
    parse_time (RawTime.str "soon") = Except.ok 0 ∧
    TimeBlock.from_dict ⟨"Mon", RawTime.str "soon", RawTime.str "17:00"⟩ =
      Except.ok ⟨"Mon", 0, 1020⟩ ∧
    TimeBlock.from_dict ⟨"Tue", RawTime.int 600, RawTime.int 500⟩ =
      Except.ok ⟨"Tue", 600, 500⟩ ∧
    normalize_day "Funday" = Except.error "Unsupported day name: Funday" :=
  ⟨rfl, rfl, rfl, rfl⟩

/-- Claim C6 counterexample: with four eligible jobs, omitting the limit
yields 3 results while an explicit limit of 5 yields 4 — so the single-match
default limit is 3, not 5 as claimed. -/
theorem single_default_limit_cex :
    (match_single_jobs_default [wJobA, wJobB, wJobC, wJobD] wUser).length = 3 ∧
      (match_single_jobs [wJobA, wJobB, wJobC, wJobD] wUser 5).length = 4 := by
  constructor
  · rw [match_single_jobs_default, match_single_jobs_length]
    rfl
  · rw [match_single_jobs_length]
    rfl

/-- Claim C6 (amended): when the limit argument is omitted both matchers
default to limit 3, so each returns at most 3 results. -/
theorem default_limits (jobs : List Job) (user : UserProfile) :
    (match_single_jobs_default jobs user).length ≤ 3 ∧
      (match_job_pairs_default jobs user).length ≤ 3 := by
  constructor
  · rw [match_single_jobs_default, match_single_jobs_length]
    exact min_le_left _ _
  · exact List.length_take_le _ _

/-- Claim C7 counterexample: with `desired_hours_per_week` set to `0`, the
code scores against `max_hours_per_week` (Python `desired or max` treats `0`
as unset), not against the set value as the claim's formula demands. -/
theorem score_job_claim_cex :
    score_job cexJob7 cexUser7 ≠ specScoreClaimed cexJob7 cexUser7 := by
  have h1 : score_job cexJob7 cexUser7 = 85 / 2 := by
    norm_num [score_job, cexJob7, cexUser7, abs_of_nonpos]
  have h2 : specScoreClaimed cexJob7 cexUser7 = -50 := by
    norm_num [specScoreClaimed, specTargetClaimed, specPreferenceBonus,
      cexJob7, cexUser7, abs_of_nonneg]
  rw [h1, h2]
  norm_num

/-- Claim C7 (amended): `score_job = hourly_rate * 2 + hoursAlignment * 10 +
preferenceBonus` with `target = desired_hours_per_week` when it is set *and
non-zero*, else `max_hours_per_week`; the divisor `max(target, 1)` is at
least 1, so never zero. -/
theorem score_job_formula (job : Job) (user : UserProfile) :
    score_job job user = specScoreAmended job user ∧
      (1 : ℚ) ≤ max ((specTargetAmended user : ℤ) : ℚ) 1 := by
  constructor
  · have htarget : (match user.desired_hours_per_week with
        | some d => if d ≠ 0 then d else user.max_hours_per_week
        | none => user.max_hours_per_week) = specTargetAmended user := by
      unfold specTargetAmended
      cases user.desired_hours_per_week with
      | none => rfl
      | some d => by_cases hd : d = 0 <;> simp [hd]
    have hbonus : (match user.preferences "environment" with
        | some env =>
          if env ≠ "" && pyContains (pyLower job.title) (pyLower env)
          then (5 : ℚ) else 0
        | none => 0) = specPreferenceBonus job user := by
      unfold specPreferenceBonus
      cases user.preferences "environment" with
      | none => rfl
      | some env =>
        dsimp only
        by_cases hc : env ≠ "" ∧ (pyLower env).toList <:+: (pyLower job.title).toList
        · rw [if_pos hc, if_pos]
          simp only [Bool.and_eq_true, decide_eq_true_eq, pyContains_iff]
          exact hc
        · rw [if_neg hc, if_neg]
          simp only [Bool.and_eq_true, decide_eq_true_eq, pyContains_iff]
          exact hc
    simp only [score_job, specScoreAmended]
    rw [htarget, hbonus, Int.cast_max]
    push_cast
    ring
  · exact le_max_right _ _

/-- Claim C8 counterexample: for two feasible jobs sharing no weekday the
pair-type insight is the longer string
`"Different Days (e.g., Mon-Wed and Thu-Sun)"`, not exactly
`"Different Days"` as claimed. -/
theorem get_pair_type_exact_cex :
    sharedDays wJobA wJobB = [] ∧
      get_pair_type wJobA wJobB ≠ "Different Days" := by
  refine ⟨by decide, ?_⟩
  rw [show get_pair_type wJobA wJobB =
    "Different Days (e.g., Mon-Wed and Thu-Sun)" from rfl]
  decide

/-- Claim C8 (amended): the pair-type insight is
`"Different Days (e.g., Mon-Wed and Thu-Sun)"` when the jobs share no
weekday; when they share one and the average block start times differ by more
than 240 minutes it is `"Morning & Evening Split (ideal rest period)"` if A
starts earlier on average and `"Evening & Morning Split (ideal rest period)"`
otherwise; and `"Complementary Schedule"` when the difference is at most
240. -/
theorem get_pair_type_cases (job_a job_b : Job) :
    (sharedDays job_a job_b = [] →
      get_pair_type job_a job_b = "Different Days (e.g., Mon-Wed and Thu-Sun)") ∧
    (sharedDays job_a job_b ≠ [] → |avgStart job_a - avgStart job_b| > 240 →
      avgStart job_a < avgStart job_b →
      get_pair_type job_a job_b = "Morning & Evening Split (ideal rest period)") ∧
    (sharedDays job_a job_b ≠ [] → |avgStart job_a - avgStart job_b| > 240 →
      avgStart job_b < avgStart job_a →
      get_pair_type job_a job_b = "Evening & Morning Split (ideal rest period)") ∧
    (sharedDays job_a job_b ≠ [] → |avgStart job_a - avgStart job_b| ≤ 240 →
      get_pair_type job_a job_b = "Complementary Schedule") := by
  refine ⟨fun h => ?_, fun h hgap hlt => ?_, fun h hgap hlt => ?_,
    fun h hgap => ?_⟩
  · simp [get_pair_type, h]
  · simp [get_pair_type, h, hgap, hlt]
  · simp [get_pair_type, h, hgap, not_lt.mpr (le_of_lt hlt)]
  · simp [get_pair_type, h, not_lt.mpr hgap]

theorem get_pair_type_cases_witness :
    get_pair_type wJobA wJobB = "Different Days (e.g., Mon-Wed and Thu-Sun)" :=
  (get_pair_type_cases wJobA wJobB).1 (by decide)

/-- Claim C9: `jobs_overlap` is commutative. -/
theorem jobs_overlap_comm (A B : Job) : jobs_overlap A B = jobs_overlap B A := by
  rw [Bool.eq_iff_iff]
  simp only [jobs_overlap, List.any_eq_true, Bool.and_eq_true,
    decide_eq_true_eq, beq_iff_eq]
  constructor
  · rintro ⟨ba, hba, bb, hbb, ⟨hd, h1⟩, h2⟩
    exact ⟨bb, hbb, ba, hba, ⟨hd.symm, h2⟩, h1⟩
  · rintro ⟨bb, hbb, ba, hba, ⟨hd, h1⟩, h2⟩
    exact ⟨ba, hba, bb, hbb, ⟨hd.symm, h2⟩, h1⟩

/-- Claim C10: a job with no schedule blocks never overlaps any job (in
either argument position) and always passes the schedule check of
`job_fits_user`, whatever the user's busy map. -/
theorem blockless_job_schedule_vacuous (A : Job) (h : A.schedule_blocks = []) :
    (∀ B : Job, jobs_overlap A B = false ∧ jobs_overlap B A = false) ∧
    ∀ user : UserProfile, scheduleFits A user = true := by
  refine ⟨fun B => ⟨?_, ?_⟩, fun user => ?_⟩
  · simp [jobs_overlap, h]
  · simp [jobs_overlap, h]
  · simp [scheduleFits, h]

theorem blockless_job_schedule_vacuous_witness :
    jobs_overlap blocklessJob wJobA = false ∧
      jobs_overlap wJobA blocklessJob = false ∧
      scheduleFits blocklessJob wUser = true :=
  ⟨((blockless_job_schedule_vacuous blocklessJob rfl).1 wJobA).1,
    ((blockless_job_schedule_vacuous blocklessJob rfl).1 wJobA).2,
    (blockless_job_schedule_vacuous blocklessJob rfl).2 wUser⟩
